import Mathlib

/-!
Shallow embedding of the SCQ-family queues of this repository
(src/include/lscq/cas2.hpp, src/src/ncq.cpp, src/src/scq.cpp,
src/src/scqp.cpp, src/src/lscq.cpp), together with proofs about the
embedded operations.

Modelling conventions:
- 64-bit machine words are `Nat`.  The monotone ticket counters `head_` /
  `tail_` and the success counters never come near `2^64` in the executions
  the theorems below speak about, so their arithmetic is plain `Nat`
  arithmetic; the one place where unsigned wraparound is semantically
  essential, the `cycle_less` comparator, is modelled with an explicit
  `% 2^64` reduction.
- `std::atomic<int64_t>` (the threshold) is `Int`.
- `T*` pointers are `Option Nat` (`none` is `nullptr`).
- The operations are given their single-threaded (sequential) semantics:
  between an atomic load and the subsequent CAS no other thread runs, so
  every CAS whose `expected` was just loaded succeeds and the
  CAS-failure retry paths of the source are unreachable.  Unbounded
  spin loops are modelled with an explicit fuel parameter; `none` means
  the operation did not complete within the given fuel.
- `t >> log2(scqsize)` and `t & (scqsize - 1)` of the source are written
  `t / scqsize` and `t % scqsize`; the two coincide for the power-of-two
  ring sizes the constructors produce.
-/

namespace Lscq

/-- Value space of a 64-bit machine word. -/
def U64MOD : Nat := 2 ^ 64

/-- The all-ones 64-bit word: the `kEmpty` sentinel of `NCQ`/`SCQ` for
`T = uint64_t` and the `kEmptyIndex` sentinel of `SCQP`'s fallback mode. -/
def U64MAX : Nat := 2 ^ 64 - 1

/-- Wrapping unsigned 64-bit subtraction `a - b`. -/
def sub64 (a b : Nat) : Nat := (a % U64MOD + (U64MOD - b % U64MOD)) % U64MOD

/-- The `cycle_less` comparator of scq.cpp / scqp.cpp:
`static_cast<int64_t>(a - b) < 0`, i.e. the wrapped difference has its top
bit set. -/
def cycle_less (a b : Nat) : Bool := 2 ^ 63 ≤ sub64 a b

/-- The 16-byte ring slot `lscq::Entry` (cas2.hpp): two 64-bit words. -/
structure Entry where
  cycle_flags : Nat
  index_or_ptr : Nat
deriving DecidableEq

/-- Sequential semantics of `lscq::cas2` (cas2.hpp): the slot pointed to is
`none` when the `Entry*` argument is null.  Result: (success flag, new slot
contents, new value of the by-reference `expected` argument). -/
def cas2 (slot : Option Entry) (expected desired : Entry) : Bool × Option Entry × Entry :=
  match slot with
  | none => (false, none, expected)
  | some current =>
    if current = expected then (true, some desired, expected)
    else (false, some current, current)

/-- `pack_cycle_flags` (scq.hpp / scqp.hpp): `(cycle << 1) | is_safe`. -/
def pack_cycle_flags (cycle : Nat) (is_safe : Bool) : Nat :=
  (cycle <<< 1) ||| (if is_safe then 1 else 0)

/-- `unpack_cycle` (scq.hpp / scqp.hpp): `cycle_flags >> 1`. -/
def unpack_cycle (cycle_flags : Nat) : Nat := cycle_flags >>> 1

/-- `unpack_is_safe` (scq.hpp / scqp.hpp): `(cycle_flags & 1) != 0`. -/
def unpack_is_safe (cycle_flags : Nat) : Bool := cycle_flags &&& 1 != 0

/-- `cache_remap`, textually identical in scq.cpp, ncq.cpp and scqp.cpp:
`line = idx >> 2`, `offset = idx & 3`, result `offset * (scqsize >> 2) + line`.
It depends only on `idx` and the ring size. -/
def cache_remap (scqsize idx : Nat) : Nat :=
  (idx &&& 3) * (scqsize >>> 2) + (idx >>> 2)

/-- `is_power_of_two` (scq.cpp / scqp.cpp anonymous namespace). -/
def is_power_of_two (v : Nat) : Bool := v != 0 && (v &&& (v - 1)) == 0

/-- The `while (out < v) out <<= 1;` loop of `round_up_pow2`.  The loop
doubles `out` starting from 1, so it runs at most `v` times; `fuel = v`
makes the bounded recursion exact. -/
def round_up_pow2_go (v : Nat) : Nat → Nat → Nat
  | out, 0 => out
  | out, fuel + 1 => if out < v then round_up_pow2_go v (out <<< 1) fuel else out

/-- `round_up_pow2` (scq.cpp / scqp.cpp anonymous namespace). -/
def round_up_pow2 (v : Nat) : Nat :=
  if v ≤ 1 then 1
  else if is_power_of_two v then v
  else round_up_pow2_go v 1 v

/-- The ring-size normalization of the SCQ and SCQP constructors
(scq.cpp lines 52-63, scqp.cpp lines 156-164, textually identical):
clamp to ≥ 4, round up to a power of two, and apply the
`qsize == 0` adjustment (unreachable after the clamp).  Returns the final
`scqsize_`; `qsize_` is `scqsize_ / 2` in every outcome. -/
def normalize_scqsize (scqsize0 : Nat) : Nat :=
  let s1 := if scqsize0 < 4 then 4 else scqsize0
  let s2 := round_up_pow2 s1
  if s2 / 2 == 0 then 2 else s2

/-- Atomic 16-byte load `detail::entry_load` (a no-op `cas2` that returns the
current slot contents). -/
def entry_load (entries : List Entry) (j : Nat) : Entry := entries.getD j ⟨0, 0⟩

/-! ### SCQ (src/src/scq.cpp, T = uint64_t) -/

/-- State of an `SCQ<uint64_t>`: the ring and the three counters.
`qsize_` and `bottom_` are derived (`scqsize / 2` and `scqsize - 1`). -/
structure SCQState where
  scqsize : Nat
  entries : List Entry
  head : Nat
  tail : Nat
  threshold : Int
deriving DecidableEq

/-- The bottom marker `⊥`: `scqsize - 1`. -/
def SCQState.bottom (s : SCQState) : Nat := s.scqsize - 1

/-- The SCQ threshold reset value `scqsize + (scqsize >> 1) - 1`
(= `3 * qsize - 1` for the even ring sizes the constructor produces). -/
def scq_threshold_reset (scqsize : Nat) : Int :=
  ((scqsize + (scqsize >>> 1) - 1 : Nat) : Int)

/-- `SCQ<T>::SCQ` (scq.cpp lines 41-82): all slots `(cycle 0, safe, ⊥)`,
`head = tail = scqsize` (cycle 1), threshold `3 * qsize - 1`. -/
def scqInit (scqsize0 : Nat) : SCQState :=
  let n := normalize_scqsize scqsize0
  { scqsize := n
    entries := List.replicate n ⟨pack_cycle_flags 0 true, n - 1⟩
    head := n
    tail := n
    threshold := scq_threshold_reset n }

/-- One ticket attempt of `SCQ<T>::enqueue` (the inner loop, scq.cpp lines
119-139) at ticket `t`: returns the post-CAS state when the slot is
committed, `none` when the ticket is abandoned.  The CAS-failure
`continue` is unreachable single-threaded. -/
def scqEnqAttempt (s : SCQState) (v t : Nat) : Option SCQState :=
  let cycle_t := t / s.scqsize
  let j := cache_remap s.scqsize (t % s.scqsize)
  let ent := entry_load s.entries j
  let cycle_e := unpack_cycle ent.cycle_flags
  if cycle_less cycle_e cycle_t ∧ ent.index_or_ptr = s.bottom ∧
      (unpack_is_safe ent.cycle_flags ∨ s.head ≤ t) then
    some { s with entries := s.entries.set j ⟨pack_cycle_flags cycle_t true, v⟩ }
  else none

/-- The outer `while (true)` of `SCQ<T>::enqueue` (scq.cpp lines 114-140):
each iteration claims a fresh ticket with `tail_.fetch_add(1)`; on success
the threshold is reset (when not already at the reset value). -/
def scqEnqueueGo (v : Nat) : Nat → SCQState → Option (Bool × SCQState)
  | 0, _ => none
  | fuel + 1, s =>
    match scqEnqAttempt { s with tail := s.tail + 1 } v s.tail with
    | some s1 =>
      some (true,
        if s1.threshold ≠ scq_threshold_reset s1.scqsize then
          { s1 with threshold := scq_threshold_reset s1.scqsize }
        else s1)
    | none => scqEnqueueGo v fuel { s with tail := s.tail + 1 }

/-- `SCQ<T>::enqueue` (scq.cpp lines 100-141): reject the sentinel and any
value ≥ ⊥, otherwise run the ticket loop. -/
def scqEnqueue (s : SCQState) (v : Nat) (fuel : Nat) : Option (Bool × SCQState) :=
  if v = U64MAX then some (false, s)
  else if s.bottom ≤ v then some (false, s)
  else scqEnqueueGo v fuel s

/-- `SCQ<T>::fixState` (scq.cpp lines 255-272), single-threaded: the CAS on
`tail_` succeeds on the first attempt, so the retry loop runs once. -/
def scqFixState (s : SCQState) : SCQState :=
  if s.head ≤ s.tail ∨ s.head - s.tail ≤ s.scqsize then s
  else { s with tail := s.head }

/-- The block both empty-return paths of `SCQ<T>::dequeue` run when the
decremented threshold drops to ≤ 0 (scq.cpp lines 215-227 and 237-249):
re-read head and tail; if the queue might be non-empty reset the
threshold, else if the head has run more than `scqsize` past the tail run
`fixState` and reset the threshold. -/
def scqMaybeFix (s : SCQState) : SCQState :=
  if s.tail > s.head then { s with threshold := scq_threshold_reset s.scqsize }
  else if s.head > s.tail ∧ s.head - s.tail > s.scqsize then
    { scqFixState s with threshold := scq_threshold_reset s.scqsize }
  else s

/-- Result of the inner slot loop of `SCQ<T>::dequeue` (scq.cpp lines
173-207): a value was consumed, or the loop broke out, or the
single-threaded execution spins for ever (the `!is_safe` `continue` with an
unchanged slot). -/
inductive DeqInner where
  | consumed (value : Nat) (s : SCQState)
  | broke (s : SCQState)
  | spin

/-- The inner slot loop of `SCQ<T>::dequeue` at slot `j` for head-cycle
`cycle_h`.  Single-threaded, a reload observes the identical entry, so the
`!is_safe` `continue` never terminates and the CAS-failure `continue` is
unreachable. -/
def scqDeqSlot (s : SCQState) (cycle_h j : Nat) : DeqInner :=
  let ent := entry_load s.entries j
  let cycle_e := unpack_cycle ent.cycle_flags
  if cycle_e = cycle_h then
    if ¬ unpack_is_safe ent.cycle_flags then .spin
    else if ent.index_or_ptr = s.bottom then .broke s
    else
      .consumed ent.index_or_ptr
        { s with entries := s.entries.set j ⟨ent.cycle_flags, ent.index_or_ptr ||| s.bottom⟩ }
  else
    let desired : Entry :=
      if ent.index_or_ptr = s.bottom then
        ⟨pack_cycle_flags cycle_h (unpack_is_safe ent.cycle_flags), s.bottom⟩
      else ⟨pack_cycle_flags cycle_e false, ent.index_or_ptr⟩
    if cycle_less cycle_e cycle_h then .broke { s with entries := s.entries.set j desired }
    else .broke s

/-- The outer `while (true)` of `SCQ<T>::dequeue` (scq.cpp lines 167-252):
claim a head ticket, run the slot loop, then the two threshold blocks. -/
def scqDequeueGo : Nat → SCQState → Option (Nat × SCQState)
  | 0, _ => none
  | fuel + 1, s =>
    let h := s.head
    let s1 := { s with head := h + 1 }
    match scqDeqSlot s1 (h / s1.scqsize) (cache_remap s1.scqsize (h % s1.scqsize)) with
    | .spin => none
    | .consumed v s2 => some (v, s2)
    | .broke s2 =>
      if s2.tail ≤ h + 1 then
        let prev := s2.threshold
        let s3 := { s2 with threshold := prev - 1 }
        some (U64MAX, if prev - 1 ≤ 0 then scqMaybeFix s3 else s3)
      else
        let prev := s2.threshold
        let s3 := { s2 with threshold := prev - 1 }
        if prev - 1 ≤ 0 then some (U64MAX, scqMaybeFix s3)
        else scqDequeueGo fuel s3

/-- `SCQ<T>::dequeue` (scq.cpp lines 144-253): fast empty exit when the
threshold is negative (re-validated against head and tail), otherwise the
ticket loop. -/
def scqDequeue (s : SCQState) (fuel : Nat) : Option (Nat × SCQState) :=
  if s.threshold < 0 then
    if s.tail > s.head then
      scqDequeueGo fuel { s with threshold := scq_threshold_reset s.scqsize }
    else some (U64MAX, s)
  else scqDequeueGo fuel s

/-- Run a list of enqueues (fuel 4 each), collecting the returned flags. -/
def scqRunEnqs : List Nat → SCQState → Option (List Bool × SCQState)
  | [], s => some ([], s)
  | v :: vs, s => do
    let (b, s1) ← scqEnqueue s v 4
    let (bs, s2) ← scqRunEnqs vs s1
    pure (b :: bs, s2)

/-- Run `n` dequeues (fuel 4 each), collecting the returned values. -/
def scqRunDeqs : Nat → SCQState → Option (List Nat × SCQState)
  | 0, s => some ([], s)
  | n + 1, s => do
    let (v, s1) ← scqDequeue s 4
    let (vs, s2) ← scqRunDeqs n s1
    pure (v :: vs, s2)

/-! ### NCQ (src/src/ncq.cpp, T = uint64_t) -/

/-- State of an `NCQ<uint64_t>`. -/
structure NCQState where
  capacity : Nat
  entries : List Entry
  head : Nat
  tail : Nat
deriving DecidableEq

/-- `round_up` (ncq.cpp anonymous namespace). -/
def ncq_round_up (value alignment : Nat) : Nat :=
  (value + (alignment - 1)) / alignment * alignment

/-- `NCQ<T>::NCQ` (ncq.cpp lines 20-46): clamp the capacity to ≥ 4 and to a
multiple of 4 (four 16-byte entries per cache line), zero all entries, and
start head and tail at `capacity` (cycle 1). -/
def ncqInit (capacity0 : Nat) : NCQState :=
  let c1 := if capacity0 = 0 then 1 else capacity0
  let c2 := if c1 < 4 then 4 else c1
  let n := ncq_round_up c2 4
  { capacity := n
    entries := List.replicate n ⟨0, 0⟩
    head := n
    tail := n }

/-- The `while (true)` of `NCQ<T>::enqueue` (ncq.cpp lines 70-99),
single-threaded: the helping CAS on `tail_` and the slot CAS both succeed.
The `cycle_e + 1 != cycle_t` stale-tail `continue` re-reads an unchanged
state, i.e. spins; fuel exhaustion models that. -/
def ncqEnqueueGo (v : Nat) : Nat → NCQState → Option (Bool × NCQState)
  | 0, _ => none
  | fuel + 1, s =>
    let t := s.tail
    let cycle_t := t / s.capacity
    let j := cache_remap s.capacity (t % s.capacity)
    let ent := entry_load s.entries j
    if ent.cycle_flags = cycle_t then
      ncqEnqueueGo v fuel { s with tail := t + 1 }
    else if ent.cycle_flags + 1 ≠ cycle_t then
      ncqEnqueueGo v fuel s
    else
      some (true, { s with entries := s.entries.set j ⟨cycle_t, v⟩, tail := t + 1 })

/-- `NCQ<T>::enqueue` (ncq.cpp lines 64-100): reject the `kEmpty` sentinel,
otherwise run the helping loop. -/
def ncqEnqueue (s : NCQState) (v : Nat) (fuel : Nat) : Option (Bool × NCQState) :=
  if v = U64MAX then some (false, s)
  else ncqEnqueueGo v fuel s

/-! ### SCQP (src/src/scqp.cpp, T = uint64_t)

Pointers are `Option Nat`: `none` is `nullptr`, `some p` an abstract
non-null `T*`.  `has_cas2_support()` is modelled as true (the native-DCAS
build), so the fallback mode is entered exactly on `force_fallback`. -/

/-- The 16-byte pointer-mode slot `SCQP<T>::EntryP`. -/
structure EntryP where
  cycle_flags : Nat
  ptr : Option Nat
deriving DecidableEq

/-- State of an `SCQP<uint64_t>`.  The ring arrays of the mode that is not
in use stay null in the source; here they stay `[]`. -/
structure SCQPState where
  scqsize : Nat
  using_fallback : Bool
  entries_p : List EntryP
  entries_i : List Entry
  ptr_array : List (Option Nat)
  head : Nat
  tail : Nat
  threshold : Int
  deq_success : Nat
  enq_success : Nat
deriving DecidableEq

/-- The SCQP threshold reset value `(scqsize << 1) - 1`
(= `4 * qsize - 1` for the even ring sizes the constructor produces). -/
def scqp_threshold_reset (scqsize : Nat) : Int := (((scqsize <<< 1) - 1 : Nat) : Int)

/-- `queue_is_full` (scqp.cpp lines 131-134):
`tail >= head && (tail - head) >= scqsize` on the success counters. -/
def queue_is_full (head tail scqsize : Nat) : Bool :=
  decide (head ≤ tail) && decide (scqsize ≤ tail - head)

/-- `SCQP<T>::SCQP` (scqp.cpp lines 137-197). -/
def scqpInit (scqsize0 : Nat) (force_fallback : Bool) : SCQPState :=
  let n := normalize_scqsize scqsize0
  { scqsize := n
    using_fallback := force_fallback
    entries_p :=
      if force_fallback then [] else List.replicate n ⟨pack_cycle_flags 0 true, none⟩
    entries_i :=
      if force_fallback then List.replicate n ⟨pack_cycle_flags 0 true, U64MAX⟩ else []
    ptr_array := if force_fallback then List.replicate n none else []
    head := n
    tail := n
    threshold := scqp_threshold_reset n
    deq_success := 0
    enq_success := 0 }

/-- `SCQP<T>::is_empty` (scqp.cpp lines 554-559): `enq_success <= deq_success`. -/
def scqpIsEmpty (s : SCQPState) : Bool := decide (s.enq_success ≤ s.deq_success)

/-- `SCQP<T>::fixState` (scqp.cpp lines 535-552), single-threaded (the CAS
succeeds on the first attempt). -/
def scqpFixState (s : SCQPState) : SCQPState :=
  if s.head ≤ s.tail ∨ s.head - s.tail ≤ s.scqsize then s
  else { s with tail := s.head }

/-- One ticket attempt of `SCQP<T>::enqueue_ptr` (the inner loop, scqp.cpp
lines 243-263) at ticket `t`. -/
def scqpEnqAttemptP (s : SCQPState) (p t : Nat) : Option SCQPState :=
  let cycle_t := t / s.scqsize
  let j := cache_remap s.scqsize (t % s.scqsize)
  let ent := s.entries_p.getD j ⟨0, none⟩
  let cycle_e := unpack_cycle ent.cycle_flags
  if cycle_less cycle_e cycle_t ∧ ent.ptr = none ∧
      (unpack_is_safe ent.cycle_flags ∨ s.head ≤ t) then
    some { s with entries_p := s.entries_p.set j ⟨pack_cycle_flags cycle_t true, some p⟩ }
  else none

/-- The outer `while (true)` of `SCQP<T>::enqueue_ptr` (scqp.cpp lines
228-265): fast-fail when `queue_is_full` on the success counters, else
claim a ticket; on CAS success reset the threshold (when needed) and count
the success. -/
def scqpEnqueuePtrGo (p : Nat) : Nat → SCQPState → Option (Bool × SCQPState)
  | 0, _ => none
  | fuel + 1, s =>
    if queue_is_full s.deq_success s.enq_success s.scqsize then some (false, s)
    else
      match scqpEnqAttemptP { s with tail := s.tail + 1 } p s.tail with
      | some s1 =>
        let s2 :=
          if s1.threshold ≠ scqp_threshold_reset s1.scqsize then
            { s1 with threshold := scqp_threshold_reset s1.scqsize }
          else s1
        some (true, { s2 with enq_success := s2.enq_success + 1 })
      | none => scqpEnqueuePtrGo p fuel { s with tail := s.tail + 1 }

/-- One ticket attempt of `SCQP<T>::enqueue_index` (the inner loop, scqp.cpp
lines 391-422): additionally claims `ptr_array[j]` with a pointer CAS
before the ring CAS; single-threaded the ring CAS then succeeds, so the
side-array rollback is unreachable. -/
def scqpEnqAttemptI (s : SCQPState) (p t : Nat) : Option SCQPState :=
  let cycle_t := t / s.scqsize
  let j := cache_remap s.scqsize (t % s.scqsize)
  let ent := s.entries_i.getD j ⟨0, 0⟩
  let cycle_e := unpack_cycle ent.cycle_flags
  if cycle_less cycle_e cycle_t ∧ ent.index_or_ptr = U64MAX ∧
      (unpack_is_safe ent.cycle_flags ∨ s.head ≤ t) then
    if s.ptr_array.getD j none = none then
      some { s with
        ptr_array := s.ptr_array.set j (some p),
        entries_i := s.entries_i.set j ⟨pack_cycle_flags cycle_t true, j⟩ }
    else none
  else none

/-- The outer `while (true)` of `SCQP<T>::enqueue_index` (scqp.cpp lines
376-424). -/
def scqpEnqueueIndexGo (p : Nat) : Nat → SCQPState → Option (Bool × SCQPState)
  | 0, _ => none
  | fuel + 1, s =>
    if queue_is_full s.deq_success s.enq_success s.scqsize then some (false, s)
    else
      match scqpEnqAttemptI { s with tail := s.tail + 1 } p s.tail with
      | some s1 =>
        let s2 :=
          if s1.threshold ≠ scqp_threshold_reset s1.scqsize then
            { s1 with threshold := scqp_threshold_reset s1.scqsize }
          else s1
        some (true, { s2 with enq_success := s2.enq_success + 1 })
      | none => scqpEnqueueIndexGo p fuel { s with tail := s.tail + 1 }

/-- `SCQP<T>::enqueue` (scqp.cpp lines 214-220): reject null, then dispatch
on the payload mode. -/
def scqpEnqueue (s : SCQPState) (ptr : Option Nat) (fuel : Nat) : Option (Bool × SCQPState) :=
  match ptr with
  | none => some (false, s)
  | some p =>
    if s.using_fallback then scqpEnqueueIndexGo p fuel s else scqpEnqueuePtrGo p fuel s

/-- Result of an SCQP dequeue inner slot loop: a (possibly null) payload
was consumed, or the loop broke out.  Unlike SCQ, the `!is_safe` spin is
bounded (`MAX_INNER_RETRIES = 1024`) and single-threaded every reload
observes the identical entry, so after 1024 retries the loop breaks. -/
inductive DeqInnerP where
  | consumed (value : Option Nat) (s : SCQPState)
  | broke (s : SCQPState)

/-- The inner slot loop of `SCQP<T>::dequeue_ptr` (scqp.cpp lines 297-334):
on a cycle match the null check comes first, then the bounded `!is_safe`
spin, then the pointer is exchanged out and the success counted. -/
def scqpDeqSlotP (s : SCQPState) (cycle_h j : Nat) : DeqInnerP :=
  let ent := s.entries_p.getD j ⟨0, none⟩
  let cycle_e := unpack_cycle ent.cycle_flags
  if cycle_e = cycle_h then
    match ent.ptr with
    | none => .broke s
    | some v =>
      if ¬ unpack_is_safe ent.cycle_flags then .broke s
      else
        .consumed (some v)
          { s with entries_p := s.entries_p.set j ⟨ent.cycle_flags, none⟩,
                   deq_success := s.deq_success + 1 }
  else
    let desired : EntryP :=
      if ent.ptr = none then ⟨pack_cycle_flags cycle_h (unpack_is_safe ent.cycle_flags), none⟩
      else ⟨pack_cycle_flags cycle_e false, ent.ptr⟩
    if cycle_less cycle_e cycle_h then .broke { s with entries_p := s.entries_p.set j desired }
    else .broke s

/-- The inner slot loop of `SCQP<T>::dequeue_index` (scqp.cpp lines
456-494): on a cycle match the empty-index check comes first, then the
bounded `!is_safe` spin, then both the side pointer and the ring index are
exchanged out. -/
def scqpDeqSlotI (s : SCQPState) (cycle_h j : Nat) : DeqInnerP :=
  let ent := s.entries_i.getD j ⟨0, 0⟩
  let cycle_e := unpack_cycle ent.cycle_flags
  if cycle_e = cycle_h then
    if ent.index_or_ptr = U64MAX then .broke s
    else if ¬ unpack_is_safe ent.cycle_flags then .broke s
    else
      let idx := ent.index_or_ptr
      .consumed (s.ptr_array.getD idx none)
        { s with ptr_array := s.ptr_array.set idx none,
                 entries_i := s.entries_i.set j ⟨ent.cycle_flags, U64MAX⟩,
                 deq_success := s.deq_success + 1 }
  else
    let desired : Entry :=
      if ent.index_or_ptr = U64MAX then
        ⟨pack_cycle_flags cycle_h (unpack_is_safe ent.cycle_flags), U64MAX⟩
      else ⟨pack_cycle_flags cycle_e false, ent.index_or_ptr⟩
    if cycle_less cycle_e cycle_h then .broke { s with entries_i := s.entries_i.set j desired }
    else .broke s

/-- The `t <= h + 1` empty-return block shared by both SCQP dequeue paths
(scqp.cpp lines 336-351 and 496-511): decrement the threshold and, when it
drops to ≤ 0 and the head has run more than `scqsize` past the tail, run
`fixState` and reset the threshold. -/
def scqpDeqEmptyTail (s : SCQPState) : SCQPState :=
  let prev := s.threshold
  let s1 := { s with threshold := prev - 1 }
  if prev - 1 ≤ 0 then
    if s1.head > s1.tail ∧ s1.head - s1.tail > s1.scqsize then
      { scqpFixState s1 with threshold := scqp_threshold_reset s1.scqsize }
    else s1
  else s1

/-- The outer `while (true)` of `SCQP<T>::dequeue_ptr` (scqp.cpp lines
288-372).  In the second threshold block, a non-empty observation
(`tail > head`) resets the threshold and retries the outer loop. -/
def scqpDequeuePtrGo : Nat → SCQPState → Option (Option Nat × SCQPState)
  | 0, _ => none
  | fuel + 1, s =>
    let h := s.head
    let s1 := { s with head := h + 1 }
    match scqpDeqSlotP s1 (h / s1.scqsize) (cache_remap s1.scqsize (h % s1.scqsize)) with
    | .consumed v s2 => some (v, s2)
    | .broke s2 =>
      if s2.tail ≤ h + 1 then some (none, scqpDeqEmptyTail s2)
      else
        let prev := s2.threshold
        let s3 := { s2 with threshold := prev - 1 }
        if prev - 1 ≤ 0 then
          if s3.tail > s3.head then
            scqpDequeuePtrGo fuel { s3 with threshold := scqp_threshold_reset s3.scqsize }
          else if s3.head > s3.tail ∧ s3.head - s3.tail > s3.scqsize then
            some (none, { scqpFixState s3 with threshold := scqp_threshold_reset s3.scqsize })
          else some (none, s3)
        else scqpDequeuePtrGo fuel s3

/-- The outer `while (true)` of `SCQP<T>::dequeue_index` (scqp.cpp lines
447-532), same control flow as the pointer path. -/
def scqpDequeueIndexGo : Nat → SCQPState → Option (Option Nat × SCQPState)
  | 0, _ => none
  | fuel + 1, s =>
    let h := s.head
    let s1 := { s with head := h + 1 }
    match scqpDeqSlotI s1 (h / s1.scqsize) (cache_remap s1.scqsize (h % s1.scqsize)) with
    | .consumed v s2 => some (v, s2)
    | .broke s2 =>
      if s2.tail ≤ h + 1 then some (none, scqpDeqEmptyTail s2)
      else
        let prev := s2.threshold
        let s3 := { s2 with threshold := prev - 1 }
        if prev - 1 ≤ 0 then
          if s3.tail > s3.head then
            scqpDequeueIndexGo fuel { s3 with threshold := scqp_threshold_reset s3.scqsize }
          else if s3.head > s3.tail ∧ s3.head - s3.tail > s3.scqsize then
            some (none, { scqpFixState s3 with threshold := scqp_threshold_reset s3.scqsize })
          else some (none, s3)
        else scqpDequeueIndexGo fuel s3

/-- The negative-threshold fast empty exit shared by both dequeue paths
(scqp.cpp lines 272-286 and 431-445). -/
def scqpDequeueGoOf (s : SCQPState) (fuel : Nat)
    (go : Nat → SCQPState → Option (Option Nat × SCQPState)) :
    Option (Option Nat × SCQPState) :=
  if s.threshold < 0 then
    if s.tail > s.head then
      go fuel { s with threshold := scqp_threshold_reset s.scqsize }
    else some (none, s)
  else go fuel s

/-- `SCQP<T>::dequeue` (scqp.cpp lines 222-226): dispatch on the payload
mode. -/
def scqpDequeue (s : SCQPState) (fuel : Nat) : Option (Option Nat × SCQPState) :=
  if s.using_fallback then scqpDequeueGoOf s fuel scqpDequeueIndexGo
  else scqpDequeueGoOf s fuel scqpDequeuePtrGo

/-- The residual-payload scan of `SCQP<T>::reset_for_reuse` (scqp.cpp lines
569-585): some ring slot (or, in fallback mode, side-array slot) still
holds a payload. -/
def scqpHasResidual (s : SCQPState) : Bool :=
  if s.using_fallback then
    (List.range s.scqsize).any fun i =>
      ((s.entries_i.getD i ⟨0, 0⟩).index_or_ptr != U64MAX) ||
        ((s.ptr_array.getD i none) != none)
  else
    (List.range s.scqsize).any fun i => (s.entries_p.getD i ⟨0, none⟩).ptr != none

/-- `SCQP<T>::reset_for_reuse` (scqp.cpp lines 561-607): refuse (without
modifying anything) unless the queue is empty and all slots are clear;
then rewrite every slot to its construction value and reset the counters.
The per-index store loops on the length-`scqsize` arrays are written as
`List.replicate`. -/
def scqpResetForReuse (s : SCQPState) : Bool × SCQPState :=
  if ¬ scqpIsEmpty s then (false, s)
  else if scqpHasResidual s then (false, s)
  else
    (true,
      { s with
        entries_i :=
          if s.using_fallback then List.replicate s.scqsize ⟨pack_cycle_flags 0 true, U64MAX⟩
          else s.entries_i
        entries_p :=
          if s.using_fallback then s.entries_p
          else List.replicate s.scqsize ⟨pack_cycle_flags 0 true, none⟩
        ptr_array := if s.using_fallback then List.replicate s.scqsize none else s.ptr_array
        head := s.scqsize
        tail := s.scqsize
        threshold := scqp_threshold_reset s.scqsize
        deq_success := 0
        enq_success := 0 })

/-- Run a list of SCQP enqueues (fuel 4 each), collecting the returned
flags. -/
def scqpRunEnqs : List Nat → SCQPState → Option (List Bool × SCQPState)
  | [], s => some ([], s)
  | p :: ps, s => do
    let (b, s1) ← scqpEnqueue s (some p) 4
    let (bs, s2) ← scqpRunEnqs ps s1
    pure (b :: bs, s2)

/-! ### LSCQ (src/src/lscq.cpp, T = uint64_t)

`Node*` pointers are indices into a growing node store (`none` is
`nullptr`).  `ObjectPool<Node>` (object_pool.hpp) is modelled by its
single-threaded `Get`/`Put` contract: `Get` hands back a previously `Put`
node or runs the factory `new Node(scqsize)`; its sharded and thread-local
internals are not observable through that contract and play no role in the
claims below. -/

/-- `LSCQ<T>::Node` (lscq.hpp lines 75-92): an SCQP ring plus linkage. -/
structure LNode where
  scqp : SCQPState
  next : Option Nat
  finalized : Bool
deriving DecidableEq

/-- State of an `LSCQ<uint64_t>` together with its node store and pool. -/
structure LSCQState where
  nodes : List LNode
  head : Nat
  tail : Nat
  active_ops : Int
  closing : Bool
  scqsize : Nat
  pool : List Nat
deriving DecidableEq

/-- Dereference a `Node*`. -/
def lnodeGet (s : LSCQState) (i : Nat) : LNode :=
  s.nodes.getD i ⟨scqpInit s.scqsize false, none, false⟩

/-- Store through a `Node*`. -/
def lnodeSet (s : LSCQState) (i : Nat) (nd : LNode) : LSCQState :=
  { s with nodes := s.nodes.set i nd }

/-- `pool_.Get()`: recycle a pooled node or run the factory
`new Node(scqsize)` (lscq.cpp line 56); `Node::Node` (lscq.cpp line 45)
builds a fresh SCQP ring with null `next` and `finalized = false`. -/
def poolGet (s : LSCQState) : Nat × LSCQState :=
  match s.pool with
  | [] =>
    (s.nodes.length, { s with nodes := s.nodes ++ [⟨scqpInit s.scqsize false, none, false⟩] })
  | i :: rest => (i, { s with pool := rest })

/-- `pool_.Put(node)`. -/
def poolPut (s : LSCQState) (i : Nat) : LSCQState := { s with pool := i :: s.pool }

/-- `prepare_node_for_use` (lscq.cpp lines 24-37): clear linkage, then
reset the ring for reuse, reconstructing it when the reset is refused. -/
def prepare_node_for_use (s : LSCQState) (i : Nat) : LSCQState :=
  let nd := lnodeGet s i
  let nd1 := { nd with next := none, finalized := false }
  match scqpResetForReuse nd1.scqp with
  | (true, ring) => lnodeSet s i { nd1 with scqp := ring }
  | (false, _) => lnodeSet s i { nd1 with scqp := scqpInit s.scqsize false }

/-- `LSCQ<T>::LSCQ` (lscq.cpp lines 51-63): create and prepare the initial
node and point head and tail at it. -/
def lscqInit (scqsize : Nat) : LSCQState :=
  let s0 : LSCQState :=
    { nodes := [], head := 0, tail := 0, active_ops := 0, closing := false,
      scqsize := scqsize, pool := [] }
  let (i, s1) := poolGet s0
  let s2 := prepare_node_for_use s1 i
  { s2 with head := i, tail := i }

/-- The bounded retry loop of `LSCQ<T>::enqueue` (lscq.cpp lines 110-149,
`MAX_RETRIES = 16`): try the tail ring; on full, win the finalize CAS,
link a prepared node (pool-returning it on a lost link race), then
CAS-advance `tail_` when `next` is visible.  `scqpFuel` bounds the
embedded ring operations; exhausting the retry budget returns false. -/
def lscqEnqueueGo (p : Nat) (scqpFuel : Nat) : Nat → LSCQState → Option (Bool × LSCQState)
  | 0, s => some (false, s)
  | retries + 1, s =>
    let t := s.tail
    let nd := lnodeGet s t
    match scqpEnqueue nd.scqp (some p) scqpFuel with
    | none => none
    | some (true, ring) => some (true, lnodeSet s t { nd with scqp := ring })
    | some (false, ring) =>
      let s1 := lnodeSet s t { nd with scqp := ring }
      let s2 :=
        if (lnodeGet s1 t).finalized = false then
          let s3 := lnodeSet s1 t { lnodeGet s1 t with finalized := true }
          let (ni, s4) := poolGet s3
          let s5 := prepare_node_for_use s4 ni
          if (lnodeGet s5 t).next = none then
            lnodeSet s5 t { lnodeGet s5 t with next := some ni }
          else poolPut s5 ni
        else s1
      match (lnodeGet s2 t).next with
      | some nx =>
        lscqEnqueueGo p scqpFuel retries
          (if s2.tail = t then { s2 with tail := nx } else s2)
      | none => lscqEnqueueGo p scqpFuel retries s2

/-- `LSCQ<T>::enqueue` (lscq.cpp lines 93-150): reject null, then the
closing gate, then the op guard (with its re-check), then the retry loop. -/
def lscqEnqueue (s : LSCQState) (ptr : Option Nat) (scqpFuel : Nat) :
    Option (Bool × LSCQState) :=
  match ptr with
  | none => some (false, s)
  | some p =>
    if s.closing then some (false, s)
    else
      let s1 := { s with active_ops := s.active_ops + 1 }
      if s1.closing then some (false, { s1 with active_ops := s1.active_ops - 1 })
      else
        match lscqEnqueueGo p scqpFuel 16 s1 with
        | none => none
        | some (b, s2) => some (b, { s2 with active_ops := s2.active_ops - 1 })

/-- The `MAX_SCQP_RETRIES = 3` re-dequeue loop of `LSCQ<T>::dequeue`
(lscq.cpp lines 189-196). -/
def lscqDeqRetry (h : Nat) (scqpFuel : Nat) : Nat → LSCQState → Option (Option Nat × LSCQState)
  | 0, s => some (none, s)
  | k + 1, s =>
    let nd := lnodeGet s h
    match scqpDequeue nd.scqp scqpFuel with
    | none => none
    | some (some v, ring) => some (some v, lnodeSet s h { nd with scqp := ring })
    | some (none, ring) => lscqDeqRetry h scqpFuel k (lnodeSet s h { nd with scqp := ring })

/-- The `while (true)` of `LSCQ<T>::dequeue` (lscq.cpp lines 169-233),
threading the `wait_retries` counter (`MAX_WAIT_RETRIES = 1024`). -/
def lscqDequeueGo (scqpFuel : Nat) : Nat → Nat → LSCQState → Option (Option Nat × LSCQState)
  | _, 0, _ => none
  | wait_retries, fuel + 1, s =>
    let h := s.head
    let nd := lnodeGet s h
    match scqpDequeue nd.scqp scqpFuel with
    | none => none
    | some (some v, ring) => some (some v, lnodeSet s h { nd with scqp := ring })
    | some (none, ring) =>
      let s1 := lnodeSet s h { nd with scqp := ring }
      let next := (lnodeGet s1 h).next
      let fin := (lnodeGet s1 h).finalized
      if fin = false ∧ next = none then some (none, s1)
      else
        match lscqDeqRetry h scqpFuel 3 s1 with
        | none => none
        | some (some v, s2) => some (some v, s2)
        | some (none, s2) =>
          if fin then
            if ¬ scqpIsEmpty (lnodeGet s2 h).scqp then
              lscqDequeueGo scqpFuel wait_retries fuel s2
            else
              match next with
              | none =>
                if wait_retries + 1 > 1024 then some (none, s2)
                else lscqDequeueGo scqpFuel (wait_retries + 1) fuel s2
              | some nx =>
                if s2.head = h then
                  lscqDequeueGo scqpFuel 0 fuel (poolPut { s2 with head := nx } h)
                else lscqDequeueGo scqpFuel 0 fuel s2
          else lscqDequeueGo scqpFuel wait_retries fuel s2

/-- `LSCQ<T>::dequeue` (lscq.cpp lines 152-234): the closing gate, the op
guard (with its re-check), then the head loop. -/
def lscqDequeue (s : LSCQState) (scqpFuel lscqFuel : Nat) :
    Option (Option Nat × LSCQState) :=
  if s.closing then some (none, s)
  else
    let s1 := { s with active_ops := s.active_ops + 1 }
    if s1.closing then some (none, { s1 with active_ops := s1.active_ops - 1 })
    else
      match lscqDequeueGo scqpFuel 0 lscqFuel s1 with
      | none => none
      | some (r, s2) => some (r, { s2 with active_ops := s2.active_ops - 1 })

/-! ## Supporting lemmas -/

theorem round_up_pow2_go_le (v : Nat) : ∀ (fuel out : Nat), out ≤ round_up_pow2_go v out fuel := by
  intro fuel
  induction fuel with
  | zero => intro out; simp [round_up_pow2_go]
  | succ f ih =>
    intro out
    simp only [round_up_pow2_go]
    split
    · calc out ≤ out <<< 1 := by rw [Nat.shiftLeft_eq]; omega
        _ ≤ _ := ih (out <<< 1)
    · exact Nat.le_refl out

theorem round_up_pow2_go_even (v : Nat) :
    ∀ (fuel out : Nat), out % 2 = 0 → round_up_pow2_go v out fuel % 2 = 0 := by
  intro fuel
  induction fuel with
  | zero => intro out h; simpa [round_up_pow2_go] using h
  | succ f ih =>
    intro out h
    simp only [round_up_pow2_go]
    split
    · exact ih (out <<< 1) (by rw [Nat.shiftLeft_eq]; omega)
    · exact h

theorem and_pred_ne_zero_of_odd (v : Nat) (hge : 3 ≤ v) (hodd : v % 2 = 1) :
    v &&& (v - 1) ≠ 0 := by
  intro h0
  have hex : ∃ i, (v - 1).testBit i = true := by
    by_contra hall
    push_neg at hall
    have hz : v - 1 = 0 := by
      refine Nat.eq_of_testBit_eq fun i => ?_
      rw [Nat.zero_testBit, ← Bool.not_eq_true]
      exact hall i
    omega
  obtain ⟨i, hi⟩ := hex
  have hbit0 : (v - 1).testBit 0 = false := by
    rw [Nat.testBit_zero, decide_eq_false_iff_not]
    omega
  have hipos : i ≠ 0 := by
    intro hz
    rw [hz, hbit0] at hi
    exact Bool.noConfusion hi
  obtain ⟨j, rfl⟩ := Nat.exists_eq_succ_of_ne_zero hipos
  have hdiv : v / 2 = (v - 1) / 2 := by omega
  have hv : v.testBit (j + 1) = true := by
    rw [Nat.testBit_succ, hdiv, ← Nat.testBit_succ]
    exact hi
  have hland : (v &&& (v - 1)).testBit (j + 1) = true := by
    rw [Nat.testBit_land, hv, hi]
    rfl
  rw [h0, Nat.zero_testBit] at hland
  exact Bool.noConfusion hland

theorem round_up_pow2_even_of_two_le (m : Nat) (hm : 2 ≤ m) :
    round_up_pow2 m % 2 = 0 ∧ 2 ≤ round_up_pow2 m := by
  unfold round_up_pow2
  split
  · omega
  · split
    · rename_i hp
      unfold is_power_of_two at hp
      rw [Bool.and_eq_true, beq_iff_eq, bne_iff_ne] at hp
      refine ⟨?_, hm⟩
      by_contra hodd
      exact and_pred_ne_zero_of_odd m (by omega) (by omega) hp.2
    · rcases Nat.exists_eq_succ_of_ne_zero (n := m) (by omega) with ⟨f, hf⟩
      rw [show round_up_pow2_go m 1 m = round_up_pow2_go m 1 (f + 1) by rw [hf]]
      simp only [round_up_pow2_go]
      rw [if_pos (by omega)]
      refine ⟨round_up_pow2_go_even m f (1 <<< 1) (by decide), ?_⟩
      have hle := round_up_pow2_go_le m f (1 <<< 1)
      calc (2 : Nat) = 1 <<< 1 := by decide
        _ ≤ _ := hle

theorem normalize_scqsize_even (n : Nat) :
    normalize_scqsize n % 2 = 0 ∧ 2 ≤ normalize_scqsize n := by
  simp only [normalize_scqsize]
  generalize hm : (if n < 4 then 4 else n) = m
  have hs1 : 4 ≤ m := by rw [← hm]; split <;> omega
  have key := round_up_pow2_even_of_two_le m (by omega)
  split
  · exact ⟨by decide, by decide⟩
  · exact key

theorem scq_threshold_reset_eq {m : Nat} (he : m % 2 = 0) (hm : 2 ≤ m) :
    scq_threshold_reset m = 3 * ((m / 2 : Nat) : Int) - 1 := by
  unfold scq_threshold_reset
  have h1 : m >>> 1 = m / 2 := by
    have := Nat.shiftRight_eq_div_pow m 1
    simpa using this
  rw [h1]
  omega

theorem scqp_threshold_reset_eq {m : Nat} (he : m % 2 = 0) (hm : 2 ≤ m) :
    scqp_threshold_reset m = 4 * ((m / 2 : Nat) : Int) - 1 := by
  unfold scqp_threshold_reset
  have h1 : m <<< 1 = m * 2 := Nat.shiftLeft_eq m 1
  rw [h1]
  omega

theorem scqEnqAttempt_some {s s1 : SCQState} {v t : Nat}
    (h : scqEnqAttempt s v t = some s1) :
    s1.scqsize = s.scqsize ∧ s1.threshold = s.threshold := by
  simp only [scqEnqAttempt] at h
  split at h
  · cases h
    exact ⟨rfl, rfl⟩
  · exact Option.noConfusion h

theorem scqEnqueueGo_some {v : Nat} :
    ∀ (fuel : Nat) (s : SCQState) (b : Bool) (s1 : SCQState),
      scqEnqueueGo v fuel s = some (b, s1) →
      s1.scqsize = s.scqsize ∧ (b = true → s1.threshold = scq_threshold_reset s.scqsize) := by
  intro fuel
  induction fuel with
  | zero => intro s b s1 h; exact Option.noConfusion h
  | succ f ih =>
    intro s b s1 h
    simp only [scqEnqueueGo] at h
    cases hA : scqEnqAttempt { s with tail := s.tail + 1 } v s.tail with
    | some s2 =>
      rw [hA] at h
      obtain ⟨h2, h3⟩ := scqEnqAttempt_some hA
      simp only at h2
      cases h
      constructor
      · split <;> simpa using h2
      · intro _
        split
        · simpa using congrArg scq_threshold_reset h2
        · rename_i hno
          rw [not_not] at hno
          rw [hno, h2]
    | none =>
      rw [hA] at h
      have := ih _ _ _ h
      simpa using this

theorem scqpEnqAttemptP_some {s s1 : SCQPState} {p t : Nat}
    (h : scqpEnqAttemptP s p t = some s1) :
    s1.scqsize = s.scqsize ∧ s1.threshold = s.threshold := by
  simp only [scqpEnqAttemptP] at h
  split at h
  · cases h
    exact ⟨rfl, rfl⟩
  · exact Option.noConfusion h

theorem scqpEnqAttemptI_some {s s1 : SCQPState} {p t : Nat}
    (h : scqpEnqAttemptI s p t = some s1) :
    s1.scqsize = s.scqsize ∧ s1.threshold = s.threshold := by
  simp only [scqpEnqAttemptI] at h
  split at h
  · split at h
    · cases h
      exact ⟨rfl, rfl⟩
    · exact Option.noConfusion h
  · exact Option.noConfusion h

theorem scqpEnqueuePtrGo_some {p : Nat} :
    ∀ (fuel : Nat) (s : SCQPState) (b : Bool) (s1 : SCQPState),
      scqpEnqueuePtrGo p fuel s = some (b, s1) →
      s1.scqsize = s.scqsize ∧ (b = true → s1.threshold = scqp_threshold_reset s.scqsize) := by
  intro fuel
  induction fuel with
  | zero => intro s b s1 h; exact Option.noConfusion h
  | succ f ih =>
    intro s b s1 h
    simp only [scqpEnqueuePtrGo] at h
    split at h
    · cases h
      exact ⟨rfl, fun hb => Bool.noConfusion hb⟩
    · cases hA : scqpEnqAttemptP { s with tail := s.tail + 1 } p s.tail with
      | some s2 =>
        rw [hA] at h
        obtain ⟨h2, h3⟩ := scqpEnqAttemptP_some hA
        simp only at h2
        cases h
        constructor
        · split <;> simpa using h2
        · intro _
          split
          · simpa using congrArg scqp_threshold_reset h2
          · rename_i hno
            rw [not_not] at hno
            rw [hno, h2]
      | none =>
        rw [hA] at h
        have := ih _ _ _ h
        simpa using this

theorem scqpEnqueueIndexGo_some {p : Nat} :
    ∀ (fuel : Nat) (s : SCQPState) (b : Bool) (s1 : SCQPState),
      scqpEnqueueIndexGo p fuel s = some (b, s1) →
      s1.scqsize = s.scqsize ∧ (b = true → s1.threshold = scqp_threshold_reset s.scqsize) := by
  intro fuel
  induction fuel with
  | zero => intro s b s1 h; exact Option.noConfusion h
  | succ f ih =>
    intro s b s1 h
    simp only [scqpEnqueueIndexGo] at h
    split at h
    · cases h
      exact ⟨rfl, fun hb => Bool.noConfusion hb⟩
    · cases hA : scqpEnqAttemptI { s with tail := s.tail + 1 } p s.tail with
      | some s2 =>
        rw [hA] at h
        obtain ⟨h2, h3⟩ := scqpEnqAttemptI_some hA
        simp only at h2
        cases h
        constructor
        · split <;> simpa using h2
        · intro _
          split
          · simpa using congrArg scqp_threshold_reset h2
          · rename_i hno
            rw [not_not] at hno
            rw [hno, h2]
      | none =>
        rw [hA] at h
        have := ih _ _ _ h
        simpa using this

theorem cache_remap_eq (n i : Nat) : cache_remap n i = (i % 4) * (n / 4) + i / 4 := by
  unfold cache_remap
  have h1 : i &&& 3 = i % 4 := by
    have h := Nat.and_pow_two_sub_one_eq_mod i 2
    norm_num at h
    exact h
  have h2 : n >>> 2 = n / 4 := by
    have h := Nat.shiftRight_eq_div_pow n 2
    norm_num at h
    exact h
  have h3 : i >>> 2 = i / 4 := by
    have h := Nat.shiftRight_eq_div_pow i 2
    norm_num at h
    exact h
  rw [h1, h2, h3]

theorem cache_remap_lt {n i : Nat} (h4 : 4 ∣ n) (hi : i < n) : cache_remap n i < n := by
  obtain ⟨m, rfl⟩ := h4
  rw [cache_remap_eq]
  have hn4 : 4 * m / 4 = m := by omega
  rw [hn4]
  have hdiv : i / 4 < m := by
    rw [Nat.div_lt_iff_lt_mul (by omega : (0 : Nat) < 4)]
    omega
  have hmul : (i % 4) * m ≤ 3 * m := Nat.mul_le_mul_right m (by omega)
  calc (i % 4) * m + i / 4 ≤ 3 * m + i / 4 := by omega
    _ < 3 * m + m := by omega
    _ = 4 * m := by ring

theorem cache_remap_inj {n i j : Nat} (h4 : 4 ∣ n) (hi : i < n) (hj : j < n)
    (h : cache_remap n i = cache_remap n j) : i = j := by
  obtain ⟨m, rfl⟩ := h4
  rw [cache_remap_eq, cache_remap_eq] at h
  have hn4 : 4 * m / 4 = m := by omega
  rw [hn4] at h
  have hdi : i / 4 < m := by
    rw [Nat.div_lt_iff_lt_mul (by omega : (0 : Nat) < 4)]
    omega
  have hdj : j / 4 < m := by
    rw [Nat.div_lt_iff_lt_mul (by omega : (0 : Nat) < 4)]
    omega
  have hoff : i % 4 = j % 4 := by
    rcases Nat.lt_trichotomy (i % 4) (j % 4) with hlt | heq | hgt
    · exfalso
      have h1 : (i % 4) * m + i / 4 < (j % 4) * m + j / 4 := by
        calc (i % 4) * m + i / 4 < (i % 4) * m + m := Nat.add_lt_add_left hdi _
          _ = (i % 4 + 1) * m := by ring
          _ ≤ (j % 4) * m := Nat.mul_le_mul_right m (by omega)
          _ ≤ (j % 4) * m + j / 4 := Nat.le_add_right _ _
      exact absurd h (Nat.ne_of_lt h1)
    · exact heq
    · exfalso
      have h1 : (j % 4) * m + j / 4 < (i % 4) * m + i / 4 := by
        calc (j % 4) * m + j / 4 < (j % 4) * m + m := Nat.add_lt_add_left hdj _
          _ = (j % 4 + 1) * m := by ring
          _ ≤ (i % 4) * m := Nat.mul_le_mul_right m (by omega)
          _ ≤ (i % 4) * m + i / 4 := Nat.le_add_right _ _
      exact absurd h.symm (Nat.ne_of_lt h1)
  rw [hoff] at h
  have hdiv := Nat.add_left_cancel h
  omega

theorem cache_remap_surj {n j : Nat} (h4 : 4 ∣ n) (hj : j < n) :
    ∃ i, i < n ∧ cache_remap n i = j := by
  obtain ⟨m, rfl⟩ := h4
  have hm : 0 < m := by omega
  have hjm : j / m < 4 := by
    rw [Nat.div_lt_iff_lt_mul hm]
    omega
  refine ⟨4 * (j % m) + j / m, ?_, ?_⟩
  · have h1 : j % m < m := Nat.mod_lt _ hm
    omega
  · rw [cache_remap_eq]
    have hmod4 : (4 * (j % m) + j / m) % 4 = j / m := by
      rw [Nat.mul_add_mod]
      exact Nat.mod_eq_of_lt hjm
    have hdiv4 : (4 * (j % m) + j / m) / 4 = j % m := by
      rw [Nat.mul_add_div (by omega : (0 : Nat) < 4)]
      have h0 : j / m / 4 = 0 := Nat.div_eq_of_lt hjm
      omega
    rw [hmod4, hdiv4]
    have hn4 : 4 * m / 4 = m := by omega
    rw [hn4]
    calc j / m * m + j % m = m * (j / m) + j % m := by ring
      _ = j := Nat.div_add_mod j m

/-! ## Claim theorems -/

set_option maxRecDepth 100000 in
/-- C1: sequential FIFO round trip on a fresh SCQ(256): enqueueing the
values 0..99 in order returns true 100 times, the next 100 dequeues return
0, 1, ..., 99 in order, and the 101st dequeue returns the `kEmpty`
sentinel `u64::MAX`. -/
theorem scq256_fifo_roundtrip :
    (do
      let (bs, s) ← scqRunEnqs (List.range 100) (scqInit 256)
      let (vs, _) ← scqRunDeqs 101 s
      pure (bs, vs))
    = some (List.replicate 100 true, List.range 100 ++ [U64MAX]) := by decide

/-- C6: the ring remap.  For every ring size the constructors produce
(`4 ∣ n`, `n ≥ 4` covers both the power-of-two SCQ/SCQP sizes and the
multiple-of-4 NCQ sizes — the three classes share the one `cache_remap`
definition, which depends only on `i` and `scqsize`), `cache_remap`
computes `offset * (scqsize >> 2) + line` with `line = i >> 2`,
`offset = i & 3`, and is a bijection of `[0, scqsize)` onto itself. -/
theorem cache_remap_bijection (n : Nat) (h4 : 4 ∣ n) (_hn : 4 ≤ n) :
    (∀ i, cache_remap n i = (i % 4) * (n / 4) + i / 4) ∧
    Set.BijOn (cache_remap n) (Set.Iio n) (Set.Iio n) := by
  refine ⟨fun i => cache_remap_eq n i, ?_, ?_, ?_⟩
  · intro i hi
    simp only [Set.mem_Iio] at hi ⊢
    exact cache_remap_lt h4 hi
  · intro i hi j hj hij
    simp only [Set.mem_Iio] at hi hj
    exact cache_remap_inj h4 hi hj hij
  · intro j hj
    simp only [Set.mem_Iio] at hj
    obtain ⟨i, hin, heq⟩ := cache_remap_surj h4 hj
    exact ⟨i, Set.mem_Iio.mpr hin, heq⟩

/-- Witness for C6 at ring size 8. -/
theorem cache_remap_bijection_witness :
    cache_remap 8 1 = (1 % 4) * (8 / 4) + 1 / 4 ∧
    Set.BijOn (cache_remap 8) (Set.Iio 8) (Set.Iio 8) :=
  ⟨(cache_remap_bijection 8 (by decide) (by decide)).1 1,
   (cache_remap_bijection 8 (by decide) (by decide)).2⟩

/-- C7: threshold reset values.  The SCQ constructor initializes the
threshold to `3 * qsize - 1` and every successful SCQ enqueue leaves it at
exactly that value; the SCQP constructor and every successful SCQP enqueue
(either payload mode) use `4 * qsize - 1`; `qsize = scqsize / 2`. -/
theorem threshold_reset_values :
    (∀ n : Nat, (scqInit n).threshold = 3 * (((scqInit n).scqsize / 2 : Nat) : Int) - 1) ∧
    (∀ (s : SCQState) (v fuel : Nat) (s1 : SCQState),
      scqEnqueue s v fuel = some (true, s1) → s.scqsize % 2 = 0 → 2 ≤ s.scqsize →
      s1.threshold = 3 * ((s.scqsize / 2 : Nat) : Int) - 1) ∧
    (∀ (n : Nat) (fb : Bool),
      (scqpInit n fb).threshold = 4 * (((scqpInit n fb).scqsize / 2 : Nat) : Int) - 1) ∧
    (∀ (s : SCQPState) (ptr : Option Nat) (fuel : Nat) (s1 : SCQPState),
      scqpEnqueue s ptr fuel = some (true, s1) → s.scqsize % 2 = 0 → 2 ≤ s.scqsize →
      s1.threshold = 4 * ((s.scqsize / 2 : Nat) : Int) - 1) := by
  refine ⟨?_, ?_, ?_, ?_⟩
  · intro n
    obtain ⟨he, h2⟩ := normalize_scqsize_even n
    show scq_threshold_reset (normalize_scqsize n) =
      3 * ((normalize_scqsize n / 2 : Nat) : Int) - 1
    rw [scq_threshold_reset_eq he h2]
  · intro s v fuel s1 h he h2
    unfold scqEnqueue at h
    split at h
    · simp at h
    · split at h
      · simp at h
      · have hgo := (scqEnqueueGo_some fuel s true s1 h).2 rfl
        rw [hgo, scq_threshold_reset_eq he h2]
  · intro n fb
    obtain ⟨he, h2⟩ := normalize_scqsize_even n
    show scqp_threshold_reset (normalize_scqsize n) =
      4 * ((normalize_scqsize n / 2 : Nat) : Int) - 1
    rw [scqp_threshold_reset_eq he h2]
  · intro s ptr fuel s1 h he h2
    cases ptr with
    | none => simp [scqpEnqueue] at h
    | some p =>
      simp only [scqpEnqueue] at h
      split at h
      · have hgo := (scqpEnqueueIndexGo_some fuel s true s1 h).2 rfl
        rw [hgo, scqp_threshold_reset_eq he h2]
      · have hgo := (scqpEnqueuePtrGo_some fuel s true s1 h).2 rfl
        rw [hgo, scqp_threshold_reset_eq he h2]

/-- Witness for C7: one successful enqueue on SCQ(4) leaves the threshold
at `3 * qsize - 1 = 5`. -/
theorem threshold_reset_values_witness :
    (⟨4, [⟨3, 0⟩, ⟨1, 3⟩, ⟨1, 3⟩, ⟨1, 3⟩], 4, 5, 5⟩ : SCQState).threshold =
      3 * (((scqInit 4).scqsize / 2 : Nat) : Int) - 1 :=
  threshold_reset_values.2.1 (scqInit 4) 0 2 _ (by decide) (by decide) (by decide)

/-- C9: `reset_for_reuse` round trip.  On a fully drained SCQP (as many
successful dequeues as enqueues, every ring slot and side-array slot
empty, the unused mode's arrays null as constructed), `reset_for_reuse`
returns true and the resulting state — head, tail, threshold, success
counters and every slot — is exactly that of a freshly constructed SCQP of
the same ring size and payload mode, so subsequent operations behave
identically on both. -/
theorem reset_for_reuse_roundtrip (s : SCQPState)
    (hnorm : s.scqsize = normalize_scqsize s.scqsize)
    (hdrain : s.enq_success = s.deq_success)
    (hres : scqpHasResidual s = false)
    (hunused : if s.using_fallback then s.entries_p = []
               else s.entries_i = [] ∧ s.ptr_array = []) :
    scqpResetForReuse s = (true, scqpInit s.scqsize s.using_fallback) := by
  have hempty : scqpIsEmpty s = true := by
    unfold scqpIsEmpty
    simp [hdrain]
  cases hfb : s.using_fallback with
  | false =>
    rw [hfb] at hunused
    simp only [Bool.false_eq_true, if_false] at hunused
    obtain ⟨hei, hpa⟩ := hunused
    simp [scqpResetForReuse, scqpInit, hempty, hres, hfb, hei, hpa, ← hnorm]
  | true =>
    rw [hfb] at hunused
    simp only [if_true] at hunused
    simp [scqpResetForReuse, scqpInit, hempty, hres, hfb, hunused, ← hnorm]

/-- Witness for C9: a freshly constructed SCQP(4) is itself fully drained,
and resetting it reproduces the constructed state. -/
theorem reset_for_reuse_roundtrip_witness :
    scqpResetForReuse (scqpInit 4 false) = (true, scqpInit 4 false) :=
  reset_for_reuse_roundtrip (scqpInit 4 false) (by decide) rfl (by decide) (by decide)

/-- C2 counterexample: the claimed invariant `tail ≥ head` already fails at
the first externally observable state of the simplest run.  On a freshly
constructed SCQ(4), one dequeue completes (returning the empty sentinel)
and leaves `head = 5 > tail = 4`: the dequeue claimed a head ticket with
`fetch_add` before discovering the queue empty, and `fixState` does not run
(it is gated on `head - tail > scqsize` after threshold exhaustion). -/
theorem scq_tail_ge_head_counterexample :
    (scqDequeue (scqInit 4) 8).map (fun r => (r.1, decide (r.2.head ≤ r.2.tail)))
      = some (U64MAX, false) := by decide

/-- C2 (amended): `tail ≥ head` does not hold at every observable state —
empty dequeues advance `head` past `tail`.  What `fixState` guarantees is
the catch-up bound in the other direction: after `fixState` the state
satisfies `head ≤ tail + scqsize` (it raises `tail` to `head` exactly when
the drift exceeds `scqsize`), and `fixState` never changes `head`, the
ring, or the threshold, and never decreases `tail`. -/
theorem scqFixState_restores_drift_bound (s : SCQState) :
    (scqFixState s).head ≤ (scqFixState s).tail + s.scqsize ∧
    (scqFixState s).head = s.head ∧ s.tail ≤ (scqFixState s).tail ∧
    (scqFixState s).scqsize = s.scqsize ∧ (scqFixState s).entries = s.entries ∧
    (scqFixState s).threshold = s.threshold := by
  unfold scqFixState
  split
  · rename_i h
    refine ⟨?_, rfl, Nat.le_refl _, rfl, rfl, rfl⟩
    omega
  · rename_i h
    refine ⟨?_, rfl, ?_, rfl, rfl, rfl⟩
    · show s.head ≤ s.head + s.scqsize
      omega
    · show s.tail ≤ s.head
      omega

/-- C3 counterexample: SCQP(4) has `qsize = scqsize / 2 = 2`, yet on a
quiescent queue already holding 2 elements (2 successful enqueues, no
dequeues since construction) the next enqueue of a non-null pointer
returns `true`, not the claimed `false`: the `queue_is_full` fast-fail
compares the success-counter difference against `scqsize`, not `qsize`. -/
theorem scqp_qsize_full_counterexample :
    (scqpRunEnqs [1, 2, 3] (scqpInit 4 false)).map Prod.fst = some [true, true, true] ∧
    (scqpInit 4 false).scqsize = 4 := ⟨by decide, by decide⟩

/-- C3 (amended): the "queue full" fast-fail of SCQP enqueue triggers at
the full ring size, not at `qsize`: whenever the success counters satisfy
`queue_is_full` (`enq_success - deq_success ≥ scqsize`), enqueue of a
non-null pointer returns false immediately with the state unchanged (both
payload modes); and concretely on SCQP(4), the first `scqsize = 4`
enqueues succeed and the fifth reports full, leaving the state unchanged. -/
theorem scqp_full_fastfail_at_scqsize :
    (∀ (s : SCQPState) (p fuel : Nat),
      queue_is_full s.deq_success s.enq_success s.scqsize = true → 0 < fuel →
        scqpEnqueue s (some p) fuel = some (false, s)) ∧
    (do
        let (bs, s) ← scqpRunEnqs [1, 2, 3, 4] (scqpInit 4 false)
        let (b5, s5) ← scqpEnqueue s (some 5) 4
        pure (bs, b5, s5 == s)) = some ([true, true, true, true], false, true) := by
  constructor
  · intro s p fuel hfull hfuel
    obtain ⟨f, rfl⟩ := Nat.exists_eq_succ_of_ne_zero (Nat.pos_iff_ne_zero.mp hfuel)
    simp only [scqpEnqueue]
    split
    · simp only [scqpEnqueueIndexGo]
      rw [if_pos hfull]
    · simp only [scqpEnqueuePtrGo]
      rw [if_pos hfull]
  · decide

/-- Witness for the amended C3 theorem at a concrete full state. -/
theorem scqp_full_fastfail_witness :
    scqpEnqueue { scqpInit 4 false with enq_success := 4 } (some 9) 2 =
      some (false, { scqpInit 4 false with enq_success := 4 }) :=
  scqp_full_fastfail_at_scqsize.1 _ 9 2 (by decide) (by decide)

/-- C4: NCQ and SCQ reject invalid values with `false` and an unchanged
state (head, tail, threshold and every slot): NCQ rejects the `kEmpty`
sentinel; SCQ rejects the sentinel and any value ≥ the bottom marker
`scqsize - 1`.  Both guards run before any state mutation. -/
theorem ncq_scq_reject_invalid :
    (∀ (s : NCQState) (fuel : Nat), ncqEnqueue s U64MAX fuel = some (false, s)) ∧
    (∀ (s : SCQState) (v fuel : Nat), v = U64MAX ∨ s.bottom ≤ v →
      scqEnqueue s v fuel = some (false, s)) := by
  constructor
  · intro s fuel
    simp [ncqEnqueue]
  · intro s v fuel hv
    by_cases hvmax : v = U64MAX
    · simp [scqEnqueue, hvmax]
    · rcases hv with hv | hb
      · exact absurd hv hvmax
      · simp [scqEnqueue, hvmax, hb]

/-- Witness for C4: SCQ(4) rejects the value 3 (= its bottom marker). -/
theorem ncq_scq_reject_invalid_witness :
    scqEnqueue (scqInit 4) 3 5 = some (false, scqInit 4) ∧
    ncqEnqueue (ncqInit 4) U64MAX 5 = some (false, ncqInit 4) :=
  ⟨ncq_scq_reject_invalid.2 (scqInit 4) 3 5 (Or.inr (by decide)),
   ncq_scq_reject_invalid.1 (ncqInit 4) 5⟩

/-- C5: the `cas2` contract.  When the slot holds `expected`, `cas2` writes
`desired` and returns true; otherwise it overwrites `expected` with the
observed contents, leaves the slot unchanged, and returns false; a null
pointer yields false with both the (absent) slot and `expected`
unchanged. -/
theorem cas2_contract (slot : Option Entry) (expected desired : Entry) :
    (slot = some expected → cas2 slot expected desired = (true, some desired, expected)) ∧
    (∀ current, slot = some current → current ≠ expected →
      cas2 slot expected desired = (false, some current, current)) ∧
    (slot = none → cas2 slot expected desired = (false, none, expected)) := by
  refine ⟨?_, ?_, ?_⟩
  · rintro rfl
    simp [cas2]
  · rintro current rfl hne
    simp [cas2, hne]
  · rintro rfl
    simp [cas2]

/-- Witness for C5 at a concrete successful CAS. -/
theorem cas2_contract_witness :
    cas2 (some ⟨1, 2⟩) ⟨1, 2⟩ ⟨3, 4⟩ = (true, some ⟨3, 4⟩, ⟨1, 2⟩) :=
  (cas2_contract (some ⟨1, 2⟩) ⟨1, 2⟩ ⟨3, 4⟩).1 rfl

/-- C8: `reset_for_reuse` error atomicity.  Whenever the queue is not
empty (`is_empty()` false) or some ring/side-array slot still holds a
payload, `reset_for_reuse` returns false and leaves the entire state
(head, tail, threshold, success counters, every slot) exactly as it was:
both checks run before the first mutation. -/
theorem reset_for_reuse_error_atomicity (s : SCQPState)
    (h : scqpIsEmpty s = false ∨ scqpHasResidual s = true) :
    scqpResetForReuse s = (false, s) := by
  rcases h with h | h
  · simp [scqpResetForReuse, h]
  · cases he : scqpIsEmpty s with
    | false => simp [scqpResetForReuse, he]
    | true => simp [scqpResetForReuse, he, h]

/-- Witness for C8 at a concrete non-empty SCQP state. -/
theorem reset_for_reuse_error_atomicity_witness :
    scqpResetForReuse { scqpInit 4 false with enq_success := 1 } =
      (false, { scqpInit 4 false with enq_success := 1 }) :=
  reset_for_reuse_error_atomicity _ (Or.inl (by decide))

/-- C10: the LSCQ closing gate.  In every state with the `closing` flag
set (as the destructor sets it), an enqueue returns false and a dequeue
returns null, and the state — in particular the node list, every node's
ring, and the pool — is returned unchanged: both operations exit through
the closing check before touching any node. -/
theorem lscq_closing_gate (s : LSCQState) (ptr : Option Nat) (scqpFuel lscqFuel : Nat)
    (h : s.closing = true) :
    lscqEnqueue s ptr scqpFuel = some (false, s) ∧
    lscqDequeue s scqpFuel lscqFuel = some (none, s) := by
  constructor
  · cases ptr with
    | none => rfl
    | some p => simp [lscqEnqueue, h]
  · simp [lscqDequeue, h]

/-- Witness for C10 on a concrete closed LSCQ. -/
theorem lscq_closing_gate_witness :
    lscqEnqueue { lscqInit 4 with closing := true } (some 7) 3 =
        some (false, { lscqInit 4 with closing := true }) ∧
    lscqDequeue { lscqInit 4 with closing := true } 3 3 =
        some (none, { lscqInit 4 with closing := true }) :=
  lscq_closing_gate { lscqInit 4 with closing := true } (some 7) 3 3 rfl

end Lscq
